import Mathlib

/-!
Shallow embedding of the waypoint-updater trajectory planner
(`ros/src/waypoint_updater/waypoint_updater.py`) and verification of its
specification.

Positions and speeds are modelled over `ℝ` (the Python code computes with
floats); indices are `ℕ`, and the stop-line index — which can carry the
sentinel `-1` — is `ℤ`.  Python list accesses `xs[i]` with a non-negative
in-range index are modelled by `List.getD`; the one negative-index access
in the source (`waypoints_2d[closest_idx-1]` for `closest_idx = 0`, which
Python resolves to the last element) is translated explicitly.
-/

/-- A 3-D position (`pose.pose.position` of a waypoint message). -/
structure Position where
  x : ℝ
  y : ℝ
  z : ℝ

instance : Inhabited Position := ⟨⟨0, 0, 0⟩⟩

/-- A waypoint: a pose (position) plus a target longitudinal speed
(`twist.twist.linear.x`). -/
structure Waypoint where
  pose : Position
  speed : ℝ

instance : Inhabited Waypoint := ⟨⟨default, 0⟩⟩

/-- Target speed of the `i`-th waypoint of a list (0 out of range). -/
def spd (l : List Waypoint) (i : ℕ) : ℝ := (l.getD i default).speed

/-- The per-segment Euclidean distance `dl` from
`WaypointUpdater.distance`: `math.sqrt((a.x-b.x)**2 + (a.y-b.y)**2 + (a.z-b.z)**2)`. -/
noncomputable def dl (a b : Position) : ℝ :=
  Real.sqrt ((a.x - b.x) ^ 2 + (a.y - b.y) ^ 2 + (a.z - b.z) ^ 2)

/-- The body of the loop in `WaypointUpdater.distance`: Python's
`for i in range(wp1, wp2+1): dist += dl(waypoints[wp1]..., waypoints[i]...); wp1 = i`
walks the index list with `wp1` tracking the previous loop index. -/
noncomputable def distanceAux (waypoints : List Waypoint) (wp1 : ℕ) (idxs : List ℕ) : ℝ :=
  match idxs with
  | [] => 0
  | i :: rest =>
      dl (waypoints.getD wp1 default).pose (waypoints.getD i default).pose
        + distanceAux waypoints i rest

/-- `WaypointUpdater.distance(waypoints, wp1, wp2)`: the loop runs over
`range(wp1, wp2+1)`, which is `List.range' wp1 (wp2 + 1 - wp1)` (empty when
`wp2 < wp1`, by truncated subtraction, exactly as Python's `range`). -/
noncomputable def distance (waypoints : List Waypoint) (wp1 wp2 : ℕ) : ℝ :=
  distanceAux waypoints wp1 (List.range' wp1 (wp2 + 1 - wp1))

/-- The list indices the loop of `WaypointUpdater.distance` reads from
`waypoints`: each iteration accesses `waypoints[wp1]` (previous index) and
`waypoints[i]` (current index). -/
def distanceAuxAccesses (wp1 : ℕ) (idxs : List ℕ) : List ℕ :=
  match idxs with
  | [] => []
  | i :: rest => wp1 :: i :: distanceAuxAccesses i rest

/-- All indices `WaypointUpdater.distance(waypoints, wp1, wp2)` reads. -/
def distanceAccesses (wp1 wp2 : ℕ) : List ℕ :=
  distanceAuxAccesses wp1 (List.range' wp1 (wp2 + 1 - wp1))

/-! Basic facts about `dl` and `distance`. -/

theorem dl_nonneg (a b : Position) : 0 ≤ dl a b := Real.sqrt_nonneg _

theorem dl_self (a : Position) : dl a a = 0 := by
  simp [dl]

theorem distanceAux_nonneg (w : List Waypoint) (p : ℕ) (idxs : List ℕ) :
    0 ≤ distanceAux w p idxs := by
  induction idxs generalizing p with
  | nil => simp [distanceAux]
  | cons i rest ih =>
      have h1 := dl_nonneg (w.getD p default).pose (w.getD i default).pose
      have h2 := ih i
      simpa [distanceAux] using add_nonneg h1 h2

theorem distance_nonneg (w : List Waypoint) (i j : ℕ) : 0 ≤ distance w i j :=
  distanceAux_nonneg w i _

/-- For `j < i` the loop range is empty and the helper returns 0. -/
theorem distance_of_lt (w : List Waypoint) (i j : ℕ) (h : j < i) :
    distance w i j = 0 := by
  have hlen : j + 1 - i = 0 := by omega
  simp [distance, hlen, distanceAux]

/-- `distance w i i` is the single degenerate segment from `w[i]` to itself. -/
theorem distance_self (w : List Waypoint) (i : ℕ) : distance w i i = 0 := by
  have hlen : i + 1 - i = 1 := by omega
  simp [distance, hlen, List.range'_one, distanceAux, dl_self]

/-- The sum of consecutive-segment lengths from waypoint `i`, over `n`
segments: `Σ_k dl(w[i+k], w[i+k+1])` for `k < n`. -/
noncomputable def segSum (w : List Waypoint) (i n : ℕ) : ℝ :=
  ((List.range' i n).map
    (fun k => dl (w.getD k default).pose (w.getD (k + 1) default).pose)).sum

theorem segSum_zero (w : List Waypoint) (i : ℕ) : segSum w i 0 = 0 := by
  simp [segSum]

theorem segSum_succ (w : List Waypoint) (i n : ℕ) :
    segSum w i (n + 1)
      = dl (w.getD i default).pose (w.getD (i + 1) default).pose + segSum w (i + 1) n := by
  simp [segSum, List.range'_succ]

theorem segSum_nonneg (w : List Waypoint) (i n : ℕ) : 0 ≤ segSum w i n := by
  induction n generalizing i with
  | zero => simp [segSum_zero]
  | succ n ih =>
      rw [segSum_succ]
      exact add_nonneg (dl_nonneg _ _) (ih (i + 1))

theorem distanceAux_cons (w : List Waypoint) (p i : ℕ) (rest : List ℕ) :
    distanceAux w p (i :: rest)
      = dl (w.getD p default).pose (w.getD i default).pose + distanceAux w i rest := rfl

theorem distanceAux_range' (w : List Waypoint) (p n : ℕ) :
    distanceAux w p (List.range' (p + 1) n) = segSum w p n := by
  induction n generalizing p with
  | zero => simp [distanceAux, segSum_zero]
  | succ n ih =>
      rw [List.range'_succ, segSum_succ]
      simp only [distanceAux]
      rw [ih (p + 1)]

/-- The loop of `distance` computes exactly the consecutive-segment sum:
its first term is the zero-length segment from `w[i]` to itself. -/
theorem distance_eq_segSum (w : List Waypoint) (i j : ℕ) (hij : i ≤ j) :
    distance w i j = segSum w i (j - i) := by
  have hlen : j + 1 - i = (j - i) + 1 := by omega
  cases hd : j - i with
  | zero =>
      have : i = j := by omega
      subst this
      simpa [segSum_zero] using distance_self w i
  | succ m =>
      rw [distance, hlen, hd, List.range'_succ, distanceAux_cons,
        distanceAux_range' w i (m + 1), dl_self, zero_add]

/-! ## The planner's operations -/

/-- `WaypointUpdater.decelerate_waypoints(self, waypoints, closest_idx)`:
for each local offset `i` a fresh waypoint is built with the source
waypoint's pose and speed
`min(vel, wp.twist.twist.linear.x)` where `vel = max_deceleration * distance(waypoints, i, stop_idx)`
clamped to `0` when below `1`, and
`stop_idx = max(stopline_wp_idx - closest_idx - 3, 0)` (a non-negative int,
converted by `toNat` where it is used as a list index). -/
noncomputable def decelerate_waypoints (stopline_wp_idx : ℤ) (max_deceleration : ℝ)
    (waypoints : List Waypoint) (closest_idx : ℕ) : List Waypoint :=
  (List.range waypoints.length).map (fun i =>
    let wp := waypoints.getD i default
    let stop_idx : ℕ := (max (stopline_wp_idx - closest_idx - 3) 0).toNat
    let dist := distance waypoints i stop_idx
    let vel := max_deceleration * dist
    let vel := if vel < 1 then 0 else vel
    { pose := wp.pose, speed := min vel wp.speed })

/-- The window slice `self.waypoints_base.waypoints[closest_idx:farthest_idx]`
in `WaypointUpdater.generate_lane`, with `farthest_idx = closest_idx +
lookahead_waypoints`: a Python slice with non-negative in-range start
truncates at the end of the list and never wraps. -/
def extractWindow (path : List Waypoint) (closest_idx lookahead : ℕ) : List Waypoint :=
  (path.drop closest_idx).take lookahead

/-- `WaypointUpdater.generate_lane`: slice the window; pass it through
unchanged when `stopline_wp_idx == -1` or `stopline_wp_idx >= farthest_idx`,
otherwise rewrite the speeds with `decelerate_waypoints`.  (The localizer
result `closest_idx` is a parameter here; in the source it is recomputed by
`get_closest_waypoint_idx`.) -/
noncomputable def generate_lane (stopline_wp_idx : ℤ) (max_deceleration : ℝ)
    (lookahead_waypoints : ℕ) (waypoints_base : List Waypoint) (closest_idx : ℕ) :
    List Waypoint :=
  let farthest_idx := closest_idx + lookahead_waypoints
  let base_waypoints := extractWindow waypoints_base closest_idx lookahead_waypoints
  if stopline_wp_idx = -1 ∨ (farthest_idx : ℤ) ≤ stopline_wp_idx then base_waypoints
  else decelerate_waypoints stopline_wp_idx max_deceleration base_waypoints closest_idx

/-- `WaypointUpdater.get_closest_waypoint_idx`, with the KD-tree query
result `closest_idx` as a parameter (the spatial index is an external
structure; the claim conditions on the nearest index it returns).
`waypoints_2d[closest_idx-1]` is Python indexing: for `closest_idx = 0`
the index `-1` resolves to the last element. -/
noncomputable def get_closest_waypoint_idx (waypoints_2d : List (ℝ × ℝ)) (x y : ℝ)
    (closest_idx : ℕ) : ℕ :=
  let closest_coord := waypoints_2d.getD closest_idx (0, 0)
  let prev_coord := waypoints_2d.getD
    (if closest_idx = 0 then waypoints_2d.length - 1 else closest_idx - 1) (0, 0)
  let val := (closest_coord.1 - prev_coord.1) * (x - closest_coord.1)
           + (closest_coord.2 - prev_coord.2) * (y - closest_coord.2)
  if 0 < val then (closest_idx + 1) % waypoints_2d.length else closest_idx

/-- The mutable node state read by `WaypointUpdater.run`: fields start as
`None` and are filled in by the subscriber callbacks (`pose_cb`,
`waypoints_cb` — which also builds `waypoints_2d`/`waypoints_tree` — and
`traffic_cb`).  The KD-tree is modelled by the 2-D point list it indexes. -/
structure UpdaterState where
  pose : Option (ℝ × ℝ)
  waypoints_base : Option (List Waypoint)
  waypoints_tree : Option (List (ℝ × ℝ))
  stopline_wp_idx : ℤ
  lookahead_waypoints : ℕ
  max_deceleration : ℝ

/-- One iteration of the loop in `WaypointUpdater.run`: if `self.pose and
self.waypoints_base and self.waypoints_tree` the node locates itself and
publishes a lane (`some window`), otherwise it does nothing (`none`).
`query` abstracts the KD-tree nearest-neighbour lookup
`self.waypoints_tree.query([x, y], 1)[1]`. -/
noncomputable def tick (query : List (ℝ × ℝ) → ℝ × ℝ → ℕ) (s : UpdaterState) :
    Option (List Waypoint) :=
  match s.pose, s.waypoints_base, s.waypoints_tree with
  | some (x, y), some base, some tree =>
      let closest := get_closest_waypoint_idx tree x y (query tree (x, y))
      some (generate_lane s.stopline_wp_idx s.max_deceleration s.lookahead_waypoints
        base closest)
  | _, _, _ => none

/-! ## Object-identity model for the emitted lane

Python lists hold references.  `lane.waypoints = base_waypoints` (the cruise
branch) stores references to the *reference path's own* `Waypoint` objects,
while `decelerate_waypoints` builds fresh `Waypoint()` objects.  `EmittedRef`
records this distinction; `setEmittedSpeed` gives the effect on the
reference path of assigning a speed through an emitted reference. -/

inductive EmittedRef where
  | ref (k : ℕ)
  | copy (w : Waypoint)

/-- `generate_lane` at the object level: the cruise branch emits references
to `waypoints_base[closest_idx] .. waypoints_base[closest_idx+len-1]`; the
deceleration branch emits the fresh copies built by `decelerate_waypoints`. -/
noncomputable def generate_lane_refs (stopline_wp_idx : ℤ) (max_deceleration : ℝ)
    (lookahead_waypoints : ℕ) (waypoints_base : List Waypoint) (closest_idx : ℕ) :
    List EmittedRef :=
  let farthest_idx := closest_idx + lookahead_waypoints
  let base_waypoints := extractWindow waypoints_base closest_idx lookahead_waypoints
  if stopline_wp_idx = -1 ∨ (farthest_idx : ℤ) ≤ stopline_wp_idx then
    (List.range' closest_idx base_waypoints.length).map EmittedRef.ref
  else
    (decelerate_waypoints stopline_wp_idx max_deceleration base_waypoints closest_idx).map
      EmittedRef.copy

/-- The reference path after a speed `v` is assigned through one emitted
reference: writing through an aliasing reference updates the path's own
waypoint, writing into a fresh copy leaves the path untouched. -/
noncomputable def writeSpeed (base : List Waypoint) (r : EmittedRef) (v : ℝ) :
    List Waypoint :=
  match r with
  | EmittedRef.ref k => base.set k { (base.getD k default) with speed := v }
  | EmittedRef.copy _ => base

/-- The reference path after the speed of the `i`-th emitted waypoint is
assigned `v`. -/
noncomputable def setEmittedSpeed (base : List Waypoint) (emitted : List EmittedRef)
    (i : ℕ) (v : ℝ) : List Waypoint :=
  writeSpeed base (emitted.getD i (EmittedRef.copy default)) v

theorem writeSpeed_copy (base : List Waypoint) (w : Waypoint) (v : ℝ) :
    writeSpeed base (EmittedRef.copy w) v = base := rfl

/-! ## Element-level descriptions of the operations -/

/-- The length of the emitted deceleration window equals the input window's. -/
theorem decelerate_length (stopline : ℤ) (maxd : ℝ) (w : List Waypoint) (c : ℕ) :
    (decelerate_waypoints stopline maxd w c).length = w.length := by
  simp [decelerate_waypoints]

/-- Element formula for `decelerate_waypoints`. -/
theorem decelerate_getD (stopline : ℤ) (maxd : ℝ) (w : List Waypoint) (c i : ℕ)
    (hi : i < w.length) :
    (decelerate_waypoints stopline maxd w c).getD i default =
      { pose := (w.getD i default).pose,
        speed := min
          (if maxd * distance w i ((max (stopline - c - 3) 0).toNat) < 1 then 0
           else maxd * distance w i ((max (stopline - c - 3) 0).toNat))
          (w.getD i default).speed } := by
  have hlen : i < (decelerate_waypoints stopline maxd w c).length := by
    rwa [decelerate_length]
  rw [List.getD_eq_getElem _ _ hlen]
  simp [decelerate_waypoints, hi]

theorem extractWindow_length (path : List Waypoint) (c h : ℕ) :
    (extractWindow path c h).length = min h (path.length - c) := by
  simp [extractWindow]

theorem extractWindow_getD (path : List Waypoint) (c h k : ℕ)
    (hk : k < (extractWindow path c h).length) :
    (extractWindow path c h).getD k default = path.getD (c + k) default := by
  rw [extractWindow_length] at hk
  have hk1 : k < h := lt_of_lt_of_le hk (min_le_left _ _)
  have hk2 : c + k < path.length := by
    have := lt_of_lt_of_le hk (min_le_right _ _)
    omega
  have hkd : k < (path.drop c).length := by
    rw [List.length_drop]; omega
  rw [extractWindow, List.getD_eq_getElem _ _ (by simpa [extractWindow] using hk),
    List.getElem_take, List.getElem_drop, List.getD_eq_getElem _ _ hk2]

/-! ## Claim theorems -/

/-- C1: the localizer takes the nearest index `C` from the spatial index,
the circularly-previous waypoint `P` (index 0's previous is the last
element), keeps `C`'s index when `dot(C - P, pose - C) ≤ 0`, and otherwise
returns `C + 1` reduced modulo the path length; the result is always `C`'s
index or its circular successor — never behind, never more than one ahead. -/
theorem C1_locate_sign_test (w2d : List (ℝ × ℝ)) (x y : ℝ) (closest_idx : ℕ)
    (h2 : 2 ≤ w2d.length) (hc : closest_idx < w2d.length) :
    (get_closest_waypoint_idx w2d x y closest_idx =
      if ((w2d.getD closest_idx (0, 0)).1
            - (w2d.getD (if closest_idx = 0 then w2d.length - 1 else closest_idx - 1)
                (0, 0)).1) * (x - (w2d.getD closest_idx (0, 0)).1)
         + ((w2d.getD closest_idx (0, 0)).2
            - (w2d.getD (if closest_idx = 0 then w2d.length - 1 else closest_idx - 1)
                (0, 0)).2) * (y - (w2d.getD closest_idx (0, 0)).2) ≤ 0
      then closest_idx
      else (closest_idx + 1) % w2d.length)
    ∧ (get_closest_waypoint_idx w2d x y closest_idx = closest_idx
       ∨ get_closest_waypoint_idx w2d x y closest_idx = (closest_idx + 1) % w2d.length) := by
  simp only [get_closest_waypoint_idx]
  by_cases hval :
    0 < ((w2d.getD closest_idx (0, 0)).1
          - (w2d.getD (if closest_idx = 0 then w2d.length - 1 else closest_idx - 1)
              (0, 0)).1) * (x - (w2d.getD closest_idx (0, 0)).1)
       + ((w2d.getD closest_idx (0, 0)).2
          - (w2d.getD (if closest_idx = 0 then w2d.length - 1 else closest_idx - 1)
              (0, 0)).2) * (y - (w2d.getD closest_idx (0, 0)).2)
  · rw [if_pos hval, if_neg (not_le.mpr hval)]
    exact ⟨rfl, Or.inr rfl⟩
  · rw [if_neg hval, if_pos (not_lt.mp hval)]
    exact ⟨rfl, Or.inl rfl⟩

/-- C9: a planning tick emits a lane exactly when the pose, the reference
path and the spatial index are all present; when any is missing the tick
does nothing (and, being total, raises no error). -/
theorem C9_ready_gate (query : List (ℝ × ℝ) → ℝ × ℝ → ℕ) (s : UpdaterState) :
    (tick query s).isSome
      = (s.pose.isSome && s.waypoints_base.isSome && s.waypoints_tree.isSome) := by
  obtain ⟨pose, base, tree, stp, la, md⟩ := s
  cases pose with
  | none => simp [tick]
  | some p =>
      obtain ⟨x, y⟩ := p
      cases base with
      | none => simp [tick]
      | some b =>
          cases tree with
          | none => simp [tick]
          | some t => simp [tick]

/-- A straight-line reference path of `n` unit-spaced collinear waypoints
along the x-axis, each with cruise speed 5 (the spec's property-test path). -/
noncomputable def lineWindow (n : ℕ) : List Waypoint :=
  (List.range n).map (fun (k : ℕ) => { pose := ⟨(k : ℝ), 0, 0⟩, speed := 5 })

theorem lineWindow_length (n : ℕ) : (lineWindow n).length = n := by
  simp [lineWindow]

theorem lineWindow_getD (n k : ℕ) (hk : k < n) :
    (lineWindow n).getD k default = { pose := ⟨(k : ℝ), 0, 0⟩, speed := 5 } := by
  have hlen : k < (lineWindow n).length := by rwa [lineWindow_length]
  rw [List.getD_eq_getElem _ _ hlen]
  simp [lineWindow, hk]

/-! ## Distance helper: totality, access safety, monotonicity -/

theorem distanceAuxAccesses_bound {n : ℕ} (p : ℕ) (idxs : List ℕ) (hp : p < n)
    (hidxs : ∀ x ∈ idxs, x < n) :
    ∀ k ∈ distanceAuxAccesses p idxs, k < n := by
  induction idxs generalizing p with
  | nil => intro k hk; simp [distanceAuxAccesses] at hk
  | cons i rest ih =>
      intro k hk
      simp only [distanceAuxAccesses, List.mem_cons] at hk
      rcases hk with rfl | rfl | hk
      · exact hp
      · exact hidxs _ (List.mem_cons_self _ _)
      · exact ih i (hidxs _ (List.mem_cons_self _ _))
          (fun x hx => hidxs x (List.mem_cons_of_mem _ hx)) k hk

/-- Additivity of the consecutive-segment sum. -/
theorem segSum_add (w : List Waypoint) (i a b : ℕ) :
    segSum w i (a + b) = segSum w i a + segSum w (i + a) b := by
  induction a generalizing i with
  | zero => simp [segSum_zero]
  | succ a ih =>
      have h1 : a + 1 + b = (a + b) + 1 := by omega
      rw [h1, segSum_succ, segSum_succ, ih (i + 1)]
      have h2 : i + (a + 1) = i + 1 + a := by omega
      rw [h2]
      ring

/-- Walking to the same stop index from farther ahead covers no more
path: `distance` is antitone in its start index (up to the stop index). -/
theorem distance_anti (w : List Waypoint) (i j sl : ℕ) (hij : i ≤ j) (hj : j ≤ sl) :
    distance w j sl ≤ distance w i sl := by
  rw [distance_eq_segSum w i sl (hij.trans hj), distance_eq_segSum w j sl hj]
  have h : sl - i = (j - i) + (sl - j) := by omega
  rw [h, segSum_add]
  have h2 : i + (j - i) = j := by omega
  rw [h2]
  have := segSum_nonneg w i (j - i)
  linarith

/-- The `if vel < 1 then 0 else vel` clamp is non-negative. -/
theorem clamp_nonneg (v : ℝ) : 0 ≤ (if v < 1 then (0 : ℝ) else v) := by
  by_cases h : v < 1
  · simp [h]
  · simp only [h, if_false]
    linarith [not_lt.mp h]

/-- The `if vel < 1 then 0 else vel` clamp is monotone. -/
theorem clamp_mono {v v' : ℝ} (h : v' ≤ v) :
    (if v' < 1 then (0 : ℝ) else v') ≤ (if v < 1 then (0 : ℝ) else v) := by
  by_cases h1 : v < 1
  · have h2 : v' < 1 := lt_of_le_of_lt h h1
    simp [h1, h2]
  · by_cases h2 : v' < 1
    · simp only [h1, h2, if_true, if_false]
      linarith [not_lt.mp h1]
    · simp [h1, h2, h]

/-- C10: the distance helper is total and safe: for a reversed pair
(`j < i`) the loop is empty and it returns exactly 0; for `i ≤ j < len`
every list access the loop performs is in range; and the result is never
negative. -/
theorem C10_distance_total_safe (w : List Waypoint) (i j : ℕ) :
    (j < i → distance w i j = 0)
    ∧ (i ≤ j → j < w.length → ∀ k ∈ distanceAccesses i j, k < w.length)
    ∧ 0 ≤ distance w i j := by
  refine ⟨distance_of_lt w i j, ?_, distance_nonneg w i j⟩
  intro hij hj k hk
  have hi : i < w.length := lt_of_le_of_lt hij hj
  refine distanceAuxAccesses_bound i _ hi ?_ k hk
  intro x hx
  have := List.mem_range'_1.mp hx
  omega

/-- Closed evaluation of C10: reversed call returns 0; the accesses of
`distance w 0 1` on a 2-element list are in range. -/
theorem C10_distance_total_safe_witness :
    distance (lineWindow 2) 1 0 = 0
    ∧ (∀ k ∈ distanceAccesses 0 1, k < (lineWindow 2).length)
    ∧ 0 ≤ distance (lineWindow 2) 1 0 :=
  ⟨(C10_distance_total_safe (lineWindow 2) 1 0).1 (by decide),
   (C10_distance_total_safe (lineWindow 2) 0 1).2.1 (by decide)
     (by simp [lineWindow]),
   (C10_distance_total_safe (lineWindow 2) 1 0).2.2⟩

/-! ## The cumulative-distance contract (C6) -/

/-- Modelled from the spec's words (§4.5): "the sum of Euclidean 3-D
distances between consecutive waypoints' positions walking from index `i`
to index `j` inclusive" — the `j - i` consecutive segments starting at `i`. -/
noncomputable def euclidSum (w : List Waypoint) (i j : ℕ) : ℝ :=
  ((List.range' i (j - i)).map
    (fun k => dl (w.getD k default).pose (w.getD (k + 1) default).pose)).sum

theorem euclidSum_eq_segSum (w : List Waypoint) (i j : ℕ) :
    euclidSum w i j = segSum w i (j - i) := rfl

/-- On the unit-spaced straight path every in-range segment has length 1. -/
theorem lineWindow_seg (n k : ℕ) (hk : k + 1 < n) :
    dl ((lineWindow n).getD k default).pose ((lineWindow n).getD (k + 1) default).pose
      = 1 := by
  rw [lineWindow_getD n k (by omega), lineWindow_getD n (k + 1) hk]
  simp only [dl]
  have harg : ((k : ℝ) - ((k + 1 : ℕ) : ℝ)) ^ 2 + ((0 : ℝ) - 0) ^ 2 + ((0 : ℝ) - 0) ^ 2
      = 1 := by
    push_cast
    ring
  rw [harg, Real.sqrt_one]

theorem lineWindow_segSum (n m i : ℕ) (h : i + m < n) :
    segSum (lineWindow n) i m = (m : ℝ) := by
  induction m generalizing i with
  | zero => simp [segSum_zero]
  | succ m ih =>
      rw [segSum_succ, lineWindow_seg n i (by omega), ih (i + 1) (by omega)]
      push_cast
      ring

/-- C6: for `i ≤ j` in range, `distance` is the sum of the Euclidean 3-D
distances between consecutive waypoints from `i` to `j` inclusive, and is
non-negative; on a straight-line path of unit-spaced collinear points it
equals `j - i`. -/
theorem C6_distance_euclid (w : List Waypoint) (i j n : ℕ) :
    (i ≤ j → distance w i j = euclidSum w i j)
    ∧ 0 ≤ distance w i j
    ∧ (i ≤ j → j < n → distance (lineWindow n) i j = (j : ℝ) - (i : ℝ)) := by
  refine ⟨fun hij => ?_, distance_nonneg w i j, fun hij hj => ?_⟩
  · rw [distance_eq_segSum w i j hij, euclidSum_eq_segSum]
  · rw [distance_eq_segSum _ i j hij, lineWindow_segSum n (j - i) i (by omega)]
    push_cast [hij]
    ring

/-- Closed evaluation of C6 on the 3-point unit-spaced path. -/
theorem C6_distance_euclid_witness :
    (0 : ℕ) ≤ 2
    ∧ distance (lineWindow 3) 0 2 = euclidSum (lineWindow 3) 0 2
    ∧ distance (lineWindow 3) 0 2 = ((2 : ℕ) : ℝ) - ((0 : ℕ) : ℝ) :=
  ⟨by decide,
   (C6_distance_euclid (lineWindow 3) 0 2 3).1 (by decide),
   (C6_distance_euclid (lineWindow 3) 0 2 3).2.2 (by decide) (by decide)⟩

/-! ## The window extractor (C5) -/

/-- C5 is refuted: the slice does not wrap circularly, so at the end of the
path the window is shorter than `min(horizon, len(path))`: with 5 waypoints,
start index 3 and horizon 30 the window has 2 elements, not `min 30 5 = 5`. -/
theorem C5_window_counterexample :
    (extractWindow (lineWindow 5) 3 30).length ≠ min 30 (lineWindow 5).length := by
  rw [extractWindow_length, lineWindow_length]
  norm_num

/-- C5 (amended): the extracted window has length
`min(horizon, len(path) - idx)` — truncating at the end of the path, with no
circular wraparound — and its `k`-th element is the reference waypoint at
`idx + k`. -/
theorem C5_window_extract_amended (path : List Waypoint) (idx h : ℕ) :
    (extractWindow path idx h).length = min h (path.length - idx)
    ∧ ∀ k, k < (extractWindow path idx h).length →
        (extractWindow path idx h).getD k default = path.getD (idx + k) default :=
  ⟨extractWindow_length path idx h, fun k hk => extractWindow_getD path idx h k hk⟩

/-- Closed evaluation of the amended C5 at the truncating input. -/
theorem C5_window_extract_amended_witness :
    (extractWindow (lineWindow 5) 3 30).length = min 30 ((lineWindow 5).length - 3)
    ∧ (extractWindow (lineWindow 5) 3 30).getD 0 default
        = (lineWindow 5).getD (3 + 0) default :=
  ⟨(C5_window_extract_amended (lineWindow 5) 3 30).1,
   (C5_window_extract_amended (lineWindow 5) 3 30).2 0
     (by rw [extractWindow_length, lineWindow_length]; norm_num)⟩

/-! ## The speed profiler (C2, C3, C7) -/

/-- Speed formula for `decelerate_waypoints` (shared helper). -/
theorem decelerate_spd (stopline : ℤ) (maxd : ℝ) (w : List Waypoint) (c i : ℕ)
    (hi : i < w.length) :
    spd (decelerate_waypoints stopline maxd w c) i
      = min
          (if maxd * distance w i ((max (stopline - c - 3) 0).toNat) < 1 then 0
           else maxd * distance w i ((max (stopline - c - 3) 0).toNat))
          (spd w i) := by
  rw [spd, decelerate_getD stopline maxd w c i hi]
  rfl

/-- C2: the profiler assigns to local offset `i` the speed
`min(vel, original_cruise_speed_at_i)` where
`vel = max_decel * distance(window, i, stop_local)`, replaced by exactly 0
when below 1.0 before the min, with
`stop_local = max(stop_idx - ahead_idx - 3, 0)`. -/
theorem C2_decelerate_profile (stopline : ℤ) (maxd : ℝ) (w : List Waypoint) (c i : ℕ)
    (hi : i < w.length) :
    spd (decelerate_waypoints stopline maxd w c) i
      = min
          (if maxd * distance w i ((max (stopline - c - 3) 0).toNat) < 1 then 0
           else maxd * distance w i ((max (stopline - c - 3) 0).toNat))
          (spd w i) :=
  decelerate_spd stopline maxd w c i hi

/-- Closed evaluation of C2 at a concrete window. -/
theorem C2_decelerate_profile_witness :
    0 < (lineWindow 2).length
    ∧ spd (decelerate_waypoints 4 1 (lineWindow 2) 0) 0
        = min
            (if 1 * distance (lineWindow 2) 0
                  ((max ((4 : ℤ) - ((0 : ℕ) : ℤ) - 3) 0).toNat) < 1 then 0
             else 1 * distance (lineWindow 2) 0
                  ((max ((4 : ℤ) - ((0 : ℕ) : ℤ) - 3) 0).toNat))
            (spd (lineWindow 2) 0) :=
  ⟨by rw [lineWindow_length]; norm_num,
   C2_decelerate_profile 4 1 (lineWindow 2) 0 0 (by rw [lineWindow_length]; norm_num)⟩

/-- C7: no emitted speed exceeds the original cruise speed of the
corresponding reference waypoint, in the cruise branch and in the
deceleration branch of `generate_lane` alike. -/
theorem C7_speed_ceiling (stopline : ℤ) (maxd : ℝ) (la : ℕ) (base : List Waypoint)
    (c i : ℕ) (hi : i < (generate_lane stopline maxd la base c).length) :
    spd (generate_lane stopline maxd la base c) i ≤ spd base (c + i) := by
  simp only [generate_lane] at hi ⊢
  by_cases hcond : stopline = -1 ∨ ((c + la : ℕ) : ℤ) ≤ stopline
  · rw [if_pos hcond] at hi ⊢
    rw [spd, extractWindow_getD base c la i hi]
    exact le_refl _
  · rw [if_neg hcond] at hi ⊢
    rw [decelerate_length] at hi
    rw [decelerate_spd stopline maxd _ c i hi]
    refine le_trans (min_le_right _ _) ?_
    rw [spd, extractWindow_getD base c la i hi]
    exact le_refl _

/-- Closed evaluation of C7 on the cruise branch. -/
theorem C7_speed_ceiling_witness :
    0 < (generate_lane (-1) 1 2 (lineWindow 2) 0).length
    ∧ spd (generate_lane (-1) 1 2 (lineWindow 2) 0) 0 ≤ spd (lineWindow 2) (0 + 0) := by
  have hi : 0 < (generate_lane (-1) 1 2 (lineWindow 2) 0).length := by
    simp only [generate_lane, true_or, if_true]
    rw [extractWindow_length, lineWindow_length]
    norm_num
  exact ⟨hi, C7_speed_ceiling (-1) 1 2 (lineWindow 2) 0 0 hi⟩

/-- C3 (amended): when `max_decel ≥ 0` and the window's original cruise
speeds are non-negative and non-increasing, the emitted speeds are
non-increasing for offsets up to `stop_local` and exactly 0 at and after
`stop_local`.  (Without the monotonicity assumption on the original speeds
the claim fails: the final `min` against a growing cruise speed can produce
an increasing profile — see the counterexample.) -/
theorem C3_decel_monotone_amended (stopline : ℤ) (maxd : ℝ) (w : List Waypoint) (c : ℕ)
    (hmaxd : 0 ≤ maxd)
    (hmono : ∀ a b : ℕ, a ≤ b → b < w.length → spd w b ≤ spd w a)
    (hnn : ∀ a : ℕ, a < w.length → 0 ≤ spd w a) :
    (∀ i j : ℕ, i ≤ j → j ≤ (max (stopline - c - 3) 0).toNat → j < w.length →
        spd (decelerate_waypoints stopline maxd w c) j
          ≤ spd (decelerate_waypoints stopline maxd w c) i)
    ∧ ∀ i : ℕ, (max (stopline - c - 3) 0).toNat ≤ i → i < w.length →
        spd (decelerate_waypoints stopline maxd w c) i = 0 := by
  constructor
  · intro i j hij hjsl hj
    have hi : i < w.length := lt_of_le_of_lt hij hj
    rw [decelerate_spd stopline maxd w c i hi, decelerate_spd stopline maxd w c j hj]
    refine min_le_min ?_ (hmono i j hij hj)
    exact clamp_mono (mul_le_mul_of_nonneg_left (distance_anti w i j _ hij hjsl) hmaxd)
  · intro i hsl hi
    rw [decelerate_spd stopline maxd w c i hi]
    have hd : distance w i ((max (stopline - c - 3) 0).toNat) = 0 := by
      rcases eq_or_lt_of_le hsl with heq | hlt
      · rw [heq]
        exact distance_self w i
      · exact distance_of_lt w i _ hlt
    rw [hd, mul_zero, if_pos (by norm_num : (0 : ℝ) < 1)]
    exact min_eq_left (hnn i hi)

/-- Closed evaluation of C3 (amended): at and past `stop_local` the
emitted speed is exactly 0. -/
theorem C3_decel_monotone_amended_witness :
    spd (decelerate_waypoints 0 1 (lineWindow 1) 0) 0 = 0 :=
  (C3_decel_monotone_amended 0 1 (lineWindow 1) 0 (by norm_num)
      (fun a b hab hb => by
        have hb0 : b = 0 := by rw [lineWindow_length] at hb; omega
        have ha0 : a = 0 := by omega
        subst hb0; subst ha0; exact le_refl _)
      (fun a ha => by
        have ha0 : a = 0 := by rw [lineWindow_length] at ha; omega
        subst ha0
        rw [spd, lineWindow_getD 1 0 (by norm_num)]
        norm_num)).2 0 (by decide) (by rw [lineWindow_length]; norm_num)

/-- A 3-waypoint unit-spaced straight window whose cruise speeds increase
from 1 to 5 — the C3 counterexample data. -/
noncomputable def w3 : List Waypoint :=
  [{ pose := ⟨0, 0, 0⟩, speed := 1 }, { pose := ⟨1, 0, 0⟩, speed := 5 },
   { pose := ⟨2, 0, 0⟩, speed := 5 }]

/-- Unit segment length on the x-axis. -/
theorem dl_unit (a b : ℝ) (h : (a - b) ^ 2 = 1) :
    dl ⟨a, 0, 0⟩ ⟨b, 0, 0⟩ = 1 := by
  simp only [dl]
  have harg : (a - b) ^ 2 + ((0 : ℝ) - 0) ^ 2 + ((0 : ℝ) - 0) ^ 2 = 1 := by
    rw [h]; norm_num
  rw [harg, Real.sqrt_one]

theorem w3_seg01 : dl (w3.getD 0 default).pose (w3.getD 1 default).pose = 1 :=
  dl_unit 0 1 (by norm_num)

theorem w3_seg12 : dl (w3.getD 1 default).pose (w3.getD 2 default).pose = 1 :=
  dl_unit 1 2 (by norm_num)

theorem w3_segSum11 : segSum w3 1 1 = 1 := by
  rw [show (1 : ℕ) = 0 + 1 from rfl, segSum_succ, segSum_zero, add_zero]
  exact w3_seg12

theorem w3_dist12 : distance w3 1 2 = 1 := by
  rw [distance_eq_segSum w3 1 2 (by norm_num)]
  exact w3_segSum11

theorem w3_dist02 : distance w3 0 2 = 2 := by
  rw [distance_eq_segSum w3 0 2 (by norm_num)]
  show segSum w3 0 (1 + 1) = 2
  rw [segSum_succ]
  have h2 : segSum w3 (0 + 1) 1 = 1 := w3_segSum11
  rw [h2]
  have h1 : dl (w3.getD 0 default).pose (w3.getD (0 + 1) default).pose = 1 := w3_seg01
  rw [h1]
  norm_num

/-- C3 is refuted as stated: with an active stop constraint within the
horizon (`stopline = 5`, ahead index 0, horizon 30, `stop_local = 2`) and
the window `w3`, the emitted speed at offset 0 is 1 but at offset 1 it is
2 — the profile increases toward `stop_local`. -/
theorem C3_counterexample :
    (5 : ℤ) ≠ -1
    ∧ (5 : ℤ) < ((0 + 30 : ℕ) : ℤ)
    ∧ (1 : ℕ) ≤ (max ((5 : ℤ) - ((0 : ℕ) : ℤ) - 3) 0).toNat
    ∧ spd (decelerate_waypoints 5 2 w3 0) 0 < spd (decelerate_waypoints 5 2 w3 0) 1 := by
  refine ⟨by norm_num, by norm_num, by decide, ?_⟩
  have hsl : (max ((5 : ℤ) - ((0 : ℕ) : ℤ) - 3) 0).toNat = 2 := by decide
  have h0 : spd (decelerate_waypoints 5 2 w3 0) 0 = 1 := by
    rw [decelerate_spd 5 2 w3 0 0 (by norm_num [w3]), hsl, w3_dist02]
    rw [show (2 : ℝ) * 2 = 4 by norm_num, if_neg (by norm_num : ¬(4 : ℝ) < 1)]
    rw [show spd w3 0 = 1 from rfl]
    norm_num
  have h1 : spd (decelerate_waypoints 5 2 w3 0) 1 = 2 := by
    rw [decelerate_spd 5 2 w3 0 1 (by norm_num [w3]), hsl, w3_dist12]
    rw [show (2 : ℝ) * 1 = 2 by norm_num, if_neg (by norm_num : ¬(2 : ℝ) < 1)]
    rw [show spd w3 1 = 5 from rfl]
    norm_num
  rw [h0, h1]
  norm_num

/-! ## The cruise pass-through decision (C4) -/

/-- C4 is refuted as stated: the code compares the stop index against
`ahead_idx + lookahead`, not `ahead_idx + len(window)`.  With a 2-waypoint
path, horizon 30, ahead index 0 and stop index 2 — which satisfies
`stop_idx ≥ ahead_idx + len(window) = 2` — the deceleration branch runs and
the emitted speed at offset 0 is 0, not the original 5. -/
theorem C4_counterexample :
    ((2 : ℤ) ≠ -1)
    ∧ (((0 + (extractWindow (lineWindow 2) 0 30).length : ℕ) : ℤ) ≤ 2)
    ∧ spd (generate_lane 2 1 30 (lineWindow 2) 0) 0 ≠ spd (lineWindow 2) 0 := by
  have hwin : extractWindow (lineWindow 2) 0 30 = lineWindow 2 := by
    rw [extractWindow, List.drop_zero]
    exact List.take_of_length_le (by rw [lineWindow_length]; norm_num)
  have hbase : spd (lineWindow 2) 0 = 5 := by
    rw [spd, lineWindow_getD 2 0 (by norm_num)]
  refine ⟨by norm_num, ?_, ?_⟩
  · rw [hwin, lineWindow_length]
    norm_num
  · have hout : spd (generate_lane 2 1 30 (lineWindow 2) 0) 0 = 0 := by
      simp only [generate_lane]
      rw [if_neg (by decide : ¬((2 : ℤ) = -1 ∨ (((0 + 30 : ℕ) : ℤ) ≤ 2))), hwin]
      rw [decelerate_spd 2 1 (lineWindow 2) 0 0 (by rw [lineWindow_length]; norm_num)]
      rw [show (max ((2 : ℤ) - ((0 : ℕ) : ℤ) - 3) 0).toNat = 0 from by decide]
      rw [distance_self, mul_zero, if_pos (by norm_num : (0 : ℝ) < 1), hbase]
      norm_num
    rw [hout, hbase]
    norm_num

/-- C4 (amended): the pass-through condition the code implements compares
the stop index against `ahead_idx + horizon` (the configured lookahead
count) — not `ahead_idx + len(window)`; the two coincide whenever the window
is not truncated by the end of the path.  When `stop_idx` is the sentinel
`-1` or `stop_idx ≥ ahead_idx + horizon`, the emitted window is the
extracted base window unmodified and every emitted speed equals the
corresponding reference waypoint's original speed. -/
theorem C4_cruise_passthrough_amended (stopline : ℤ) (maxd : ℝ) (la : ℕ)
    (base : List Waypoint) (c : ℕ)
    (h : stopline = -1 ∨ ((c + la : ℕ) : ℤ) ≤ stopline) :
    generate_lane stopline maxd la base c = extractWindow base c la
    ∧ ∀ i, i < (generate_lane stopline maxd la base c).length →
        spd (generate_lane stopline maxd la base c) i = spd base (c + i) := by
  have heq : generate_lane stopline maxd la base c = extractWindow base c la := by
    simp only [generate_lane]
    rw [if_pos h]
  refine ⟨heq, fun i hi => ?_⟩
  rw [heq] at hi ⊢
  rw [spd, extractWindow_getD base c la i hi, spd]

/-- Closed evaluation of the amended C4 on a sentinel stop index. -/
theorem C4_cruise_passthrough_amended_witness :
    ((-1 : ℤ) = -1 ∨ (((0 + 2 : ℕ) : ℤ) ≤ -1))
    ∧ generate_lane (-1) 1 2 (lineWindow 2) 0 = extractWindow (lineWindow 2) 0 2
    ∧ spd (generate_lane (-1) 1 2 (lineWindow 2) 0) 0 = spd (lineWindow 2) (0 + 0) := by
  have h : (-1 : ℤ) = -1 ∨ (((0 + 2 : ℕ) : ℤ) ≤ -1) := Or.inl rfl
  have main := C4_cruise_passthrough_amended (-1) 1 2 (lineWindow 2) 0 h
  refine ⟨h, main.1, main.2 0 ?_⟩
  rw [main.1, extractWindow_length, lineWindow_length]
  norm_num

/-! ## Aliasing of emitted waypoints (C8) -/

/-- A concrete 2-waypoint reference path with cruise speed 5. -/
noncomputable def base2 : List Waypoint :=
  [{ pose := ⟨0, 0, 0⟩, speed := 5 }, { pose := ⟨1, 0, 0⟩, speed := 5 }]

/-- C8 is refuted as stated: in the cruise branch the emitted lane holds
references to the reference path's own waypoint objects (the Python slice
copies the list, not its elements).  Assigning speed 99 through emitted
offset 0 changes the reference path's waypoint 0 from 5 to 99. -/
theorem C8_counterexample :
    spd (setEmittedSpeed base2 (generate_lane_refs (-1) 1 2 base2 0) 0 99) 0 = 99
    ∧ spd base2 0 = 5 := by
  have hrefs : generate_lane_refs (-1) 1 2 base2 0
      = [EmittedRef.ref 0, EmittedRef.ref 1] := by
    simp only [generate_lane_refs, true_or, if_true]
    rfl
  rw [hrefs]
  exact ⟨rfl, rfl⟩

/-- C8 (amended): only the deceleration branch emits independent fresh
copies — there, assigning a speed through any emitted waypoint leaves the
reference path unchanged (and the profiler itself never mutates the
reference path); in the cruise branch the emitted window aliases the
reference waypoints, so writing a speed through it does alter the
reference path. -/
theorem C8_fresh_copies_amended (stopline : ℤ) (maxd : ℝ) (la : ℕ)
    (base : List Waypoint) (c : ℕ)
    (h1 : stopline ≠ -1) (h2 : stopline < ((c + la : ℕ) : ℤ)) :
    ∀ i v, setEmittedSpeed base (generate_lane_refs stopline maxd la base c) i v
      = base := by
  intro i v
  have hcond : ¬(stopline = -1 ∨ ((c + la : ℕ) : ℤ) ≤ stopline) := by
    push_neg
    exact ⟨h1, h2⟩
  simp only [generate_lane_refs]
  rw [if_neg hcond]
  simp only [setEmittedSpeed]
  have hcopy : ∃ wpt,
      ((decelerate_waypoints stopline maxd (extractWindow base c la) c).map
          EmittedRef.copy).getD i (EmittedRef.copy default) = EmittedRef.copy wpt := by
    by_cases hi : i < ((decelerate_waypoints stopline maxd (extractWindow base c la) c).map
        EmittedRef.copy).length
    · rw [List.getD_eq_getElem _ _ hi, List.getElem_map]
      exact ⟨_, rfl⟩
    · push_neg at hi
      rw [List.getD_eq_default _ _ hi]
      exact ⟨default, rfl⟩
  obtain ⟨wpt, hw⟩ := hcopy
  rw [hw, writeSpeed_copy]

/-- Closed evaluation of the amended C8 on the deceleration branch. -/
theorem C8_fresh_copies_amended_witness :
    (2 : ℤ) ≠ -1
    ∧ (2 : ℤ) < ((0 + 30 : ℕ) : ℤ)
    ∧ setEmittedSpeed base2 (generate_lane_refs 2 1 30 base2 0) 0 99 = base2 :=
  ⟨by norm_num, by norm_num,
   C8_fresh_copies_amended 2 1 30 base2 0 (by norm_num) (by norm_num) 0 99⟩

/-- A concrete 2-point 2-D reference path for exercising the localizer. -/
noncomputable def w2dPair : List (ℝ × ℝ) := [(0, 0), (1, 0)]

/-- Closed evaluation of C1 at a concrete pose and nearest index. -/
theorem C1_locate_sign_test_witness :
    2 ≤ w2dPair.length
    ∧ (1 : ℕ) < w2dPair.length
    ∧ (get_closest_waypoint_idx w2dPair 2 0 1 = 1
       ∨ get_closest_waypoint_idx w2dPair 2 0 1 = (1 + 1) % w2dPair.length) :=
  ⟨by simp [w2dPair], by simp [w2dPair],
   (C1_locate_sign_test w2dPair 2 0 1 (by simp [w2dPair]) (by simp [w2dPair])).2⟩
